import Mathlib

/-!
Shallow embedding of `pydm/widgets/multi_axis_viewbox.py` (`MultiAxisViewBox`).

Modelling conventions:
* Float quantities (scale factors, coordinates) are modelled as rationals `ℚ`;
  the wheel scale factor (framework state `self.state['wheelScaleFactor']`) is
  modelled as an integer exponent so that `1.02 ** (delta * wheelScaleFactor)`
  is an exact rational power.
* The coordinate `Point(functions.invertQTransform(self.childGroup.transform()).map(ev.pos()))`
  goes through a host-framework Qt transform; the mapped result is taken as
  event data (field `mappedPos` of `WheelEv`).
* Python lists used as stacks (`append` / `pop` at the end) are modelled as
  Lean lists with the stack TOP at the HEAD; `append` is cons, `pop` takes
  the head.
* Signal emissions and delegations to the base class (`super().wheelEvent`,
  `scaleBy`, `enableAutoRange`, `showAxRect`, `_resetTarget`) are recorded as
  an ordered trace of `Emit` values; the handlers return the new widget state
  together with that trace.  (`print` calls write to the console and are not
  part of the trace.)
* `None | 0 | 1` axis arguments become `Option Int`; `ViewBox.YAxis = 1`,
  `ViewBox.RectMode = 1`, `Qt.Key.Key_Backspace = 0x01000003` as in
  pyqtgraph / Qt.
-/

namespace MultiAxisViewBox

/-- 2D coordinate of a zoom center (pyqtgraph `Point`), floats as rationals. -/
abbrev Pt := ℚ × ℚ

/-- The `axis` argument of the handlers: `None`, `0` (x axis) or `1` (y axis). -/
abbrev Axis := Option Int

/-- One undo/redo stack entry `(scale factor, center, axis)`. -/
abbrev ZoomEntry := ℚ × Pt × Axis

/-- A previously displayed view rectangle, opaque to the logic here. -/
abbrev Rect := Int

/-- pyqtgraph `ViewBox.XAxis`. -/
def XAxis : Int := 0

/-- pyqtgraph `ViewBox.YAxis`. -/
def YAxis : Int := 1

/-- pyqtgraph `ViewBox.RectMode`. -/
def RectMode : Int := 1

/-- pyqtgraph `ViewBox.PanMode`. -/
def PanMode : Int := 3

/-- Qt key code for `Qt.Key.Key_Backspace` (0x01000003). -/
def Key_Backspace : Int := 16777219

/-- Signal emissions / framework delegations recorded by the handlers,
in call order. -/
inductive Emit where
  /-- `self.sigMouseWheelZoomed.emit(self, ev, axis)` -/
  | mouseWheelZoomed (axis : Axis)
  /-- `self.sigMouseDragged.emit(self, ev, axis)` -/
  | mouseDragged (axis : Axis)
  /-- `self.sigMouseDraggedDone.emit()` -/
  | mouseDraggedDone
  /-- `self.sigHistoryChanged.emit(d)` -/
  | historyChanged (d : Int)
  /-- `self.zoomSignal.emit(self, scale, center, axis)` -/
  | zoom (scale : ℚ) (center : Pt) (axis : Axis)
  /-- `self.scaleBy(s, center)` -/
  | scaleBy (s : List (Option ℚ)) (center : Pt)
  /-- `self.sigRangeChangedManually.emit(mask)` -/
  | rangeChangedManually (mask : List Bool)
  /-- `self.enableAutoRange()` -/
  | autoRange
  /-- `self.showAxRect(r)`; `none` models a Python `IndexError` on lookup -/
  | showAxRect (r : Option Rect)
  /-- `self._resetTarget()` -/
  | resetTarget
  /-- `super().wheelEvent(ev, axis)` -/
  | superWheel (axis : Axis)
  /-- `super().mouseDragEvent(ev, axis)` -/
  | superDrag (axis : Axis)
  deriving DecidableEq

/-- The mutable widget state the handlers read and write: the two zoom stacks
introduced by this subclass, plus the pieces of inherited `ViewBox` state the
methods use (`axHistory`, `axHistoryPointer`, `state['wheelScaleFactor']`,
`state['mouseMode']`). -/
structure VBState where
  undoStack : List ZoomEntry
  redoStack : List ZoomEntry
  axHistory : List Rect
  axHistoryPointer : Int
  wheelScaleFactor : Int
  mouseMode : Int
  deriving DecidableEq

/-- Wheel event data: `ev.delta()` and `ev.pos()` mapped through the inverted
child-group transform (the Qt transform is host-framework state, so the mapped
point is taken as event data). -/
structure WheelEv where
  delta : Int
  mappedPos : Pt
  deriving DecidableEq

/-- Drag event data: `ev.isFinish()`. -/
structure DragEv where
  isFinish : Bool
  deriving DecidableEq

/-- Key event data: `ev.text()` and `ev.key()`. -/
structure KeyEv where
  text : String
  key : Int
  deriving DecidableEq

/-- `factor = 1 / (1.02 ** (ev.delta() * self.state['wheelScaleFactor']))`. -/
def wheelZoomFactor (st : VBState) (ev : WheelEv) : ℚ :=
  1 / (1.02 : ℚ) ^ (ev.delta * st.wheelScaleFactor)

/-- `MultiAxisViewBox.wheelEvent(self, ev, axis=None, fromSignal=False)`. -/
def wheelEvent (st : VBState) (ev : WheelEv) (axis : Axis) (fromSignal : Bool) :
    VBState × List Emit :=
  -- if axis != ViewBox.YAxis and not fromSignal: self.sigMouseWheelZoomed.emit(...)
  let broadcast : List Emit :=
    if axis ≠ some YAxis ∧ fromSignal = false then [Emit.mouseWheelZoomed axis] else []
  let center : Pt := ev.mappedPos
  let factor : ℚ := wheelZoomFactor st ev
  -- self.redoStack = []; then the undo-stack coalescing
  let undoStack' : List ZoomEntry :=
    match st.undoStack with
    | [] => [(factor, center, axis)]
    | prev :: rest =>
      if prev.2.1 = center ∧ prev.2.2 = axis then
        (factor * prev.1, center, axis) :: rest
      else
        (factor, center, axis) :: prev :: rest
  ({ st with redoStack := [], undoStack := undoStack' },
   broadcast ++ [Emit.superWheel axis])

/-- `MultiAxisViewBox.mouseDragEvent(self, ev, axis=None, fromSignal=False)`. -/
def mouseDragEvent (st : VBState) (ev : DragEv) (axis : Axis) (fromSignal : Bool) :
    VBState × List Emit :=
  let broadcast : List Emit :=
    if axis ≠ some YAxis ∧ fromSignal = false then
      Emit.mouseDragged axis ::
        (if ev.isFinish = true ∧ st.mouseMode = RectMode ∧ axis = none then
          [Emit.mouseDraggedDone]
        else [])
    else []
  (st, broadcast ++ [Emit.superDrag axis])

/-- `MultiAxisViewBox.undo(self)`. -/
def undo (st : VBState) : VBState × List Emit :=
  match st.undoStack with
  | [] => (st, [])
  | (scale, center, axis) :: rest =>
    let mask : List Bool := [true, true]
    -- s = [(None if m is False else scale) for m in mask]
    let s : List (Option ℚ) := mask.map (fun m => if m = false then none else some scale)
    let redoScale : ℚ := 1 / scale
    ({ st with undoStack := rest, redoStack := (redoScale, center, axis) :: st.redoStack },
     [Emit.resetTarget, Emit.zoom scale center axis, Emit.scaleBy s center,
      Emit.rangeChangedManually mask])

/-- Python list indexing `l[i]` for an `int` index: negative indices count from
the end, out-of-range raises `IndexError` (modelled as `none`). -/
def pyGet {α : Type} (l : List α) (i : Int) : Option α :=
  if 0 ≤ i then l.get? i.toNat
  else if 0 ≤ i + l.length then l.get? (i + l.length).toNat
  else none

/-- `MultiAxisViewBox.scaleHistory(self, d)`. -/
def scaleHistory (st : VBState) (d : Int) : VBState × List Emit :=
  let notify : List Emit := [Emit.historyChanged d]
  if st.axHistory.length ≠ 0 then
    let ptr : Int :=
      if d = -1 ∧ st.axHistoryPointer ≠ -1 then st.axHistoryPointer - 1
      else if d = 1 ∧ st.axHistoryPointer ≠ (st.axHistory.length : Int) - 1 then
        st.axHistoryPointer + 1
      else if d = 0 then -1
      else st.axHistoryPointer
    let st' := { st with axHistoryPointer := ptr }
    if ptr = -1 then (st', notify ++ [Emit.autoRange])
    else (st', notify ++ [Emit.showAxRect (pyGet st.axHistory ptr)])
  else (st, notify)

/-- `MultiAxisViewBox.keyPressEvent(self, ev)`: returns the new state, the
trace, and whether the event ends up accepted (`ev.accept()` first, the
unhandled branch calls `ev.ignore()`). -/
def keyPressEvent (st : VBState) (ev : KeyEv) : VBState × List Emit × Bool :=
  if ev.text = "-" then
    ((undo st).1, (undo st).2, true)
  else if ev.text = "+" ∨ ev.text = "=" then
    ((scaleHistory st 1).1, (scaleHistory st 1).2, true)
  else if ev.key = Key_Backspace then
    ((scaleHistory st 0).1, (scaleHistory st 0).2, true)
  else
    (st, [], false)

/-- One user-visible operation on the widget, for stating invariants over
arbitrary interaction sequences. -/
inductive Op where
  | wheel (ev : WheelEv) (axis : Axis) (fromSignal : Bool)
  | undoOp
  | key (ev : KeyEv)
  | history (d : Int)
  deriving DecidableEq

/-- State reached after one operation (the emitted trace is dropped). -/
def stepOp (st : VBState) : Op → VBState
  | Op.wheel ev a fs => (wheelEvent st ev a fs).1
  | Op.undoOp => (undo st).1
  | Op.key ev => (keyPressEvent st ev).1
  | Op.history d => (scaleHistory st d).1

/-- State reached after a sequence of operations. -/
def run (st : VBState) (ops : List Op) : VBState :=
  List.foldl stepOp st ops

/-- No two adjacent undo-stack entries share both center and axis. -/
def coalesced (l : List ZoomEntry) : Prop :=
  List.Chain' (fun a b => a.2 ≠ b.2) l

/-- Recognizes `sigHistoryChanged` emissions. -/
def isHistoryNotify : Emit → Bool
  | Emit.historyChanged _ => true
  | _ => false

/-- Recognizes `sigMouseWheelZoomed` emissions. -/
def isWheelBroadcast : Emit → Bool
  | Emit.mouseWheelZoomed _ => true
  | _ => false

/-- Recognizes `sigMouseDragged` emissions. -/
def isDragBroadcast : Emit → Bool
  | Emit.mouseDragged _ => true
  | _ => false

/-! ### Theorems -/

/-- C1: For every call to `wheelEvent` (any axis, any `fromSignal` value), if
the undo stack is non-empty and its top entry has a center equal to the event's
computed transform-space center and an axis equal to the event's axis, then the
new zoom factor is multiplied into that top entry in place and the undo stack's
length is unchanged; otherwise a new `(factor, center, axis)` entry is pushed
on top and the length grows by one. -/
theorem wheelEvent_coalesces (st : VBState) (ev : WheelEv) (axis : Axis)
    (fromSignal : Bool) :
    match st.undoStack with
    | [] =>
        (wheelEvent st ev axis fromSignal).1.undoStack
            = [(wheelZoomFactor st ev, ev.mappedPos, axis)]
          ∧ (wheelEvent st ev axis fromSignal).1.undoStack.length
            = st.undoStack.length + 1
    | prev :: rest =>
        if prev.2.1 = ev.mappedPos ∧ prev.2.2 = axis then
          (wheelEvent st ev axis fromSignal).1.undoStack
              = (wheelZoomFactor st ev * prev.1, prev.2.1, prev.2.2) :: rest
            ∧ (wheelEvent st ev axis fromSignal).1.undoStack.length
              = st.undoStack.length
        else
          (wheelEvent st ev axis fromSignal).1.undoStack
              = (wheelZoomFactor st ev, ev.mappedPos, axis) :: st.undoStack
            ∧ (wheelEvent st ev axis fromSignal).1.undoStack.length
              = st.undoStack.length + 1 := by
  unfold wheelEvent
  cases h : st.undoStack with
  | nil => simp [h]
  | cons prev rest =>
    by_cases hc : prev.2.1 = ev.mappedPos ∧ prev.2.2 = axis
    · simp [h, hc, hc.1, hc.2]
    · simp [h, hc]

/-- C2: For every call to `wheelEvent`, regardless of the axis argument and of
whether the event arrived via a propagated signal, the redo stack is empty
immediately after the call returns. -/
theorem wheelEvent_clears_redoStack (st : VBState) (ev : WheelEv) (axis : Axis)
    (fromSignal : Bool) :
    (wheelEvent st ev axis fromSignal).1.redoStack = [] := by
  unfold wheelEvent
  rfl

/-- C3: For every call to `undo()` with a non-empty undo stack holding
`(scale, center, axis)` on top: that entry is popped, a zoom signal carrying
`(scale, center, axis)` is emitted, the view is scaled by the recorded factor
around the recorded center with a per-axis mask of `[True, True]` (both axes,
never restricted to the recorded axis), and the entry `(1/scale, center, axis)`
is appended to the redo stack. -/
theorem undo_pops_scales_and_records (st : VBState) (scale : ℚ) (center : Pt)
    (axis : Axis) (rest : List ZoomEntry)
    (h : st.undoStack = (scale, center, axis) :: rest) :
    (undo st).1.undoStack = rest
    ∧ Emit.zoom scale center axis ∈ (undo st).2
    ∧ Emit.scaleBy [some scale, some scale] center ∈ (undo st).2
    ∧ Emit.rangeChangedManually [true, true] ∈ (undo st).2
    ∧ (undo st).1.redoStack = (1 / scale, center, axis) :: st.redoStack := by
  unfold undo
  rw [h]
  simp

/-- Witness for C3 at a concrete state. -/
theorem undo_pops_scales_and_records_witness :
    (let st : VBState :=
      { undoStack := [((2 : ℚ), ((0 : ℚ), (0 : ℚ)), none)], redoStack := [],
        axHistory := [], axHistoryPointer := -1, wheelScaleFactor := 1,
        mouseMode := RectMode }
     (undo st).1.undoStack = []
     ∧ Emit.zoom 2 (0, 0) none ∈ (undo st).2
     ∧ Emit.scaleBy [some 2, some 2] (0, 0) ∈ (undo st).2
     ∧ Emit.rangeChangedManually [true, true] ∈ (undo st).2
     ∧ (undo st).1.redoStack = (1 / 2, (0, 0), none) :: []) :=
  undo_pops_scales_and_records _ 2 (0, 0) none [] rfl

/-- C4: For every call to `undo()` when the undo stack is empty, the call is a
no-op: no signal is emitted, no scaling performed, and the whole widget state
is unchanged. -/
theorem undo_empty_is_noop (st : VBState) (h : st.undoStack = []) :
    undo st = (st, []) := by
  unfold undo
  rw [h]

/-- Witness for C4 at a concrete state. -/
theorem undo_empty_is_noop_witness :
    (let st : VBState :=
      { undoStack := [], redoStack := [], axHistory := [], axHistoryPointer := -1,
        wheelScaleFactor := 1, mouseMode := RectMode }
     st.undoStack = [] ∧ undo st = (st, [])) :=
  ⟨rfl, undo_empty_is_noop _ rfl⟩

/-- C5 counterexample: with a one-element history list and pointer 0, calling
`scaleHistory (-1)` moves the pointer to -1 and triggers auto-range, so the
backward move is NOT bounded at 0 as the claim states. -/
theorem scaleHistory_backward_below_zero :
    (let st : VBState :=
      { undoStack := [], redoStack := [], axHistory := [7], axHistoryPointer := 0,
        wheelScaleFactor := 1, mouseMode := RectMode }
     (scaleHistory st (-1)).1.axHistoryPointer = -1
     ∧ ¬ (scaleHistory st (-1)).1.axHistoryPointer = 0
     ∧ (scaleHistory st (-1)).2 = [Emit.historyChanged (-1), Emit.autoRange]) := by
  refine ⟨rfl, by decide, rfl⟩

/-- C5 (amended): whenever the history list is non-empty and the pointer is in
the valid range `[-1, length - 1]`: direction -1 moves the pointer backward by
one, bounded at -1 (not 0); direction +1 moves it forward by one, bounded at
the last index; direction 0 resets it to -1; any other direction leaves it
unchanged; after the update, a pointer of -1 triggers auto-range and any other
pointer re-displays the rectangle stored at that index.  When the history list
is empty only the history-changed signal fires and the state is unchanged. -/
theorem scaleHistory_navigation (st : VBState) (d : Int)
    (h1 : -1 ≤ st.axHistoryPointer)
    (h2 : st.axHistoryPointer ≤ (st.axHistory.length : Int) - 1) :
    if st.axHistory.length = 0 then
      (scaleHistory st d).1 = st ∧ (scaleHistory st d).2 = [Emit.historyChanged d]
    else
      (if d = -1 then
          (scaleHistory st d).1.axHistoryPointer = max (-1) (st.axHistoryPointer - 1)
        else if d = 1 then
          (scaleHistory st d).1.axHistoryPointer
            = min ((st.axHistory.length : Int) - 1) (st.axHistoryPointer + 1)
        else if d = 0 then
          (scaleHistory st d).1.axHistoryPointer = -1
        else
          (scaleHistory st d).1.axHistoryPointer = st.axHistoryPointer)
      ∧ (scaleHistory st d).2
          = Emit.historyChanged d ::
            (if (scaleHistory st d).1.axHistoryPointer = -1 then [Emit.autoRange]
             else [Emit.showAxRect
                     (pyGet st.axHistory (scaleHistory st d).1.axHistoryPointer)]) := by
  unfold scaleHistory
  by_cases hlen : st.axHistory.length = 0
  · simp [hlen]
  · simp only [hlen, ne_eq, not_false_iff, if_true, if_false]
    split_ifs <;> simp_all <;> omega

/-- Witness for the amended C5 at a concrete state (two history entries,
pointer 0, direction +1). -/
theorem scaleHistory_navigation_witness :
    (let st : VBState :=
      { undoStack := [], redoStack := [], axHistory := [7, 8], axHistoryPointer := 0,
        wheelScaleFactor := 1, mouseMode := RectMode }
     ((-1 ≤ st.axHistoryPointer) ∧ st.axHistoryPointer ≤ (st.axHistory.length : Int) - 1)
     ∧ (if st.axHistory.length = 0 then
          (scaleHistory st 1).1 = st ∧ (scaleHistory st 1).2 = [Emit.historyChanged 1]
        else
          (if (1 : Int) = -1 then
              (scaleHistory st 1).1.axHistoryPointer = max (-1) (st.axHistoryPointer - 1)
            else if (1 : Int) = 1 then
              (scaleHistory st 1).1.axHistoryPointer
                = min ((st.axHistory.length : Int) - 1) (st.axHistoryPointer + 1)
            else if (1 : Int) = 0 then
              (scaleHistory st 1).1.axHistoryPointer = -1
            else
              (scaleHistory st 1).1.axHistoryPointer = st.axHistoryPointer)
          ∧ (scaleHistory st 1).2
              = Emit.historyChanged 1 ::
                (if (scaleHistory st 1).1.axHistoryPointer = -1 then [Emit.autoRange]
                 else [Emit.showAxRect
                         (pyGet st.axHistory (scaleHistory st 1).1.axHistoryPointer)]))) :=
  ⟨⟨by decide, by decide⟩, scaleHistory_navigation _ 1 (by decide) (by decide)⟩

/-- C6: For every call to `scaleHistory(d)`, with any integer `d` and any
history-list contents (including an empty list), the history-changed signal is
emitted exactly once, carrying the raw value `d`, even when the call does not
move the pointer. -/
theorem scaleHistory_notifies_exactly_once (st : VBState) (d : Int) :
    ((scaleHistory st d).2.filter isHistoryNotify) = [Emit.historyChanged d] := by
  unfold scaleHistory
  split_ifs <;> try rfl
  all_goals dsimp only
  all_goals split <;> rfl

/-- C7: For every `wheelEvent` and every `mouseDragEvent`, the corresponding
broadcast signal (`sigMouseWheelZoomed` or `sigMouseDragged`) is emitted if and
only if `fromSignal` is false and the event's axis is not the Y axis, and then
exactly once; a Y-axis event is never broadcast and a propagated event is never
re-broadcast. -/
theorem broadcast_policy (st : VBState) (wev : WheelEv) (dev : DragEv)
    (axis : Axis) (fromSignal : Bool) :
    ((wheelEvent st wev axis fromSignal).2.filter isWheelBroadcast
        = if axis ≠ some YAxis ∧ fromSignal = false then [Emit.mouseWheelZoomed axis]
          else [])
    ∧ ((mouseDragEvent st dev axis fromSignal).2.filter isDragBroadcast
        = if axis ≠ some YAxis ∧ fromSignal = false then [Emit.mouseDragged axis]
          else []) := by
  constructor
  · unfold wheelEvent
    split_ifs <;> simp [isWheelBroadcast]
  · unfold mouseDragEvent
    split_ifs <;> simp [isDragBroadcast]

/-- C8 counterexample: a finishing drag in rectangle-select mode with axis
`None` that arrives as a propagated signal (`fromSignal = True`) does NOT emit
`sigMouseDraggedDone`, so the claim fails as stated. -/
theorem dragDone_missing_when_propagated :
    (let st : VBState :=
      { undoStack := [], redoStack := [], axHistory := [], axHistoryPointer := -1,
        wheelScaleFactor := 1, mouseMode := RectMode }
     Emit.mouseDraggedDone ∉ (mouseDragEvent st ⟨true⟩ none true).2) := by
  decide

/-- C8 (amended): for every `mouseDragEvent` whose event reports the drag is
finishing, while the mouse mode is rectangle-select mode, the event has no
associated axis (axis is `None`), and the event did not arrive via a
propagated signal (`fromSignal` false), the drag-finished signal
`sigMouseDraggedDone` is emitted. -/
theorem dragDone_emitted_on_finished_rect_drag (st : VBState) (ev : DragEv)
    (h1 : ev.isFinish = true) (h2 : st.mouseMode = RectMode) :
    Emit.mouseDraggedDone ∈ (mouseDragEvent st ev none false).2 := by
  unfold mouseDragEvent
  simp [h1, h2]

/-- Witness for the amended C8 at a concrete state. -/
theorem dragDone_emitted_on_finished_rect_drag_witness :
    (let st : VBState :=
      { undoStack := [], redoStack := [], axHistory := [], axHistoryPointer := -1,
        wheelScaleFactor := 1, mouseMode := RectMode }
     (DragEv.mk true).isFinish = true ∧ st.mouseMode = RectMode
     ∧ Emit.mouseDraggedDone ∈ (mouseDragEvent st (DragEv.mk true) none false).2) :=
  ⟨rfl, rfl, dragDone_emitted_on_finished_rect_drag _ _ rfl rfl⟩

/-- C9: `keyPressEvent` dispatch: text `"-"` triggers `undo()`; text `"+"` or
`"="` triggers `scaleHistory(1)`; the Backspace key triggers `scaleHistory(0)`;
any other key leaves the event not accepted, invokes no history operation and
leaves the state unchanged.  (The cases are tested in this order, mirroring the
`elif` chain.) -/
theorem keyPressEvent_dispatch (st : VBState) (ev : KeyEv) :
    if ev.text = "-" then
      keyPressEvent st ev = ((undo st).1, (undo st).2, true)
    else if ev.text = "+" ∨ ev.text = "=" then
      keyPressEvent st ev = ((scaleHistory st 1).1, (scaleHistory st 1).2, true)
    else if ev.key = Key_Backspace then
      keyPressEvent st ev = ((scaleHistory st 0).1, (scaleHistory st 0).2, true)
    else
      keyPressEvent st ev = (st, [], false) := by
  unfold keyPressEvent
  split_ifs <;> rfl

/-! ### Helper lemmas for the C10 invariant -/

/-- The undo stack produced by `wheelEvent`, written as an explicit case
split. -/
theorem wheelEvent_undoStack (st : VBState) (ev : WheelEv) (axis : Axis)
    (fs : Bool) :
    (wheelEvent st ev axis fs).1.undoStack =
      match st.undoStack with
      | [] => [(wheelZoomFactor st ev, ev.mappedPos, axis)]
      | prev :: rest =>
        if prev.2.1 = ev.mappedPos ∧ prev.2.2 = axis then
          (wheelZoomFactor st ev * prev.1, ev.mappedPos, axis) :: rest
        else (wheelZoomFactor st ev, ev.mappedPos, axis) :: prev :: rest := by
  unfold wheelEvent
  cases st.undoStack <;> rfl

/-- `wheelEvent` preserves the adjacent-distinctness invariant of the undo
stack. -/
theorem coalesced_wheel (st : VBState) (ev : WheelEv) (axis : Axis) (fs : Bool)
    (h : coalesced st.undoStack) :
    coalesced (wheelEvent st ev axis fs).1.undoStack := by
  unfold coalesced at h ⊢
  rw [wheelEvent_undoStack]
  cases hs : st.undoStack with
  | nil => exact List.chain'_singleton _
  | cons prev rest =>
    rw [hs] at h
    rcases prev with ⟨pf, pc, pa⟩
    dsimp only
    by_cases hc : pc = ev.mappedPos ∧ pa = axis
    · rw [if_pos hc]
      cases rest with
      | nil => exact List.chain'_singleton _
      | cons q t =>
        rw [List.chain'_cons] at h ⊢
        refine ⟨?_, h.2⟩
        rw [← hc.1, ← hc.2]
        exact h.1
    · rw [if_neg hc]
      rw [List.chain'_cons]
      refine ⟨?_, h⟩
      intro he
      rw [Prod.mk.injEq] at he
      exact hc ⟨he.1.symm, he.2.symm⟩

/-- `undo` preserves the adjacent-distinctness invariant of the undo stack. -/
theorem coalesced_undo (st : VBState) (h : coalesced st.undoStack) :
    coalesced (undo st).1.undoStack := by
  unfold coalesced at h ⊢
  unfold undo
  cases hs : st.undoStack with
  | nil => exact h
  | cons e rest =>
    rw [hs] at h
    rcases e with ⟨sc, ce, ax⟩
    exact h.tail

/-- `scaleHistory` never touches the undo stack. -/
theorem scaleHistory_undoStack (st : VBState) (d : Int) :
    (scaleHistory st d).1.undoStack = st.undoStack := by
  unfold scaleHistory
  dsimp only
  split_ifs <;> rfl

/-- `keyPressEvent` preserves the adjacent-distinctness invariant of the undo
stack. -/
theorem coalesced_key (st : VBState) (ev : KeyEv) (h : coalesced st.undoStack) :
    coalesced (keyPressEvent st ev).1.undoStack := by
  unfold keyPressEvent
  split_ifs
  · exact coalesced_undo st h
  · show coalesced (scaleHistory st 1).1.undoStack
    rw [scaleHistory_undoStack]
    exact h
  · show coalesced (scaleHistory st 0).1.undoStack
    rw [scaleHistory_undoStack]
    exact h
  · exact h

/-- Every operation preserves the adjacent-distinctness invariant. -/
theorem coalesced_step (st : VBState) (op : Op) (h : coalesced st.undoStack) :
    coalesced (stepOp st op).undoStack := by
  cases op with
  | wheel ev a fs => exact coalesced_wheel st ev a fs h
  | undoOp => exact coalesced_undo st h
  | key ev => exact coalesced_key st ev h
  | history d =>
    show coalesced (scaleHistory st d).1.undoStack
    rw [scaleHistory_undoStack]
    exact h

/-- C10: Starting from the initial state with an empty undo stack, after any
sequence of `wheelEvent`, `undo`, `keyPressEvent`, and `scaleHistory` calls,
no two adjacent entries of the undo stack share both center and axis, so any
run of consecutive wheel zooms at one center and axis occupies a single
undo-stack entry. -/
theorem run_undoStack_coalesced (st0 : VBState) (ops : List Op)
    (h : st0.undoStack = []) :
    coalesced (run st0 ops).undoStack := by
  have h0 : coalesced st0.undoStack := by
    rw [h]
    exact List.chain'_nil
  clear h
  unfold run
  induction ops generalizing st0 with
  | nil => exact h0
  | cons op rest ih => exact ih (stepOp st0 op) (coalesced_step st0 op h0)

/-- Witness for C10: two consecutive wheel zooms at the same center and axis,
starting from the empty state. -/
theorem run_undoStack_coalesced_witness :
    (let st0 : VBState :=
      { undoStack := [], redoStack := [], axHistory := [], axHistoryPointer := -1,
        wheelScaleFactor := 1, mouseMode := RectMode }
     let ops : List Op :=
       [Op.wheel ⟨1, (0, 0)⟩ none false, Op.wheel ⟨1, (0, 0)⟩ none false,
        Op.wheel ⟨1, (2, 3)⟩ (some 0) false, Op.undoOp]
     st0.undoStack = [] ∧ coalesced (run st0 ops).undoStack) :=
  ⟨rfl, run_undoStack_coalesced _ _ rfl⟩

end MultiAxisViewBox
